import Mathlib

set_option maxHeartbeats 1000000

/-!
Shallow embedding of the Python repository (a polymorphic batch-processing
teaching project) and verification of its specification claims.

Python values relevant to the claims are embedded as the inductive `Value`.
Machine floats are modelled as rationals (all data exercised by the spec is
exact), Python `int` as `ℤ`, and CPython's exact `type()` tags are kept:
`vbool` is a distinct constructor, so a `type(x) in (int, float)` check
rejects booleans while an `isinstance(x, (int, float))` check accepts them.
Fallible code (a statement that can raise) returns `Except String _`;
string rendering keeps the exact literals of the source.
-/

inductive Value where
  | vnone
  | vbool (b : Bool)
  | vint (n : ℤ)
  | vfloat (q : ℚ)
  | vstr (s : String)
  | vlist (l : List Value)
  | vdict (l : List (String × Value))

/-- `v is None` in Python. -/
def Value.isNone : Value → Bool
  | Value.vnone => true
  | _ => false

/-- CPython exact type check `type(x) in (int, float)`: booleans carry the
distinct type tag `bool`, so they fail this test. -/
def isIntOrFloat : Value → Bool
  | Value.vint _ => true
  | Value.vfloat _ => true
  | _ => false

/-- `isinstance(x, (int, float))`: `bool` is a subclass of `int` in Python,
so booleans pass this test. -/
def isNumLike : Value → Bool
  | Value.vint _ => true
  | Value.vfloat _ => true
  | Value.vbool _ => true
  | _ => false

/-- Numeric content of a Python number (`True` adds 1, `False` adds 0 in
arithmetic); junk value 0 for non-numbers, never reached under validation. -/
def toQ : Value → ℚ
  | Value.vint n => (n : ℚ)
  | Value.vfloat q => q
  | Value.vbool b => if b then 1 else 0
  | _ => 0

/-! ## ex0/stream_processor.py -/

/-- Result shape of `DataProcessor.process`: the source renders an
`[ALERT] ... invalid ... data` string, a `"data empty"` string, or a report
line; the report's numeric fields are kept structured here. -/
inductive NumResult where
  | invalid
  | empty
  | report (count : ℕ) (total : ℚ) (avg : ℚ)
deriving DecidableEq

/-- `NumericProcessor.validate` (src/ex0/stream_processor.py:41-49): exact
type check on a single number, or a list whose every element passes the
exact `type(value) in (int, float)` test. -/
def numericValidate : Value → Bool
  | Value.vint _ => true
  | Value.vfloat _ => true
  | Value.vlist l => l.all isIntOrFloat
  | _ => false

/-- Accumulator loop of `NumericProcessor.process`:
`total = 0; length = 0; for value in data: total += value; length += 1`. -/
def numericFold (l : List Value) : ℚ × ℕ :=
  l.foldl (fun acc v => (acc.1 + toQ v, acc.2 + 1)) ((0 : ℚ), (0 : ℕ))

/-- `NumericProcessor.process` (src/ex0/stream_processor.py:19-39): validate
first, single numbers are a one-element batch, empty list reports empty,
otherwise sum and count by the loop and divide (Python `/`: true division,
modelled by exact division on `ℚ`). -/
def numericProcess (data : Value) : NumResult :=
  if numericValidate data then
    match data with
    | Value.vint n => NumResult.report 1 (n : ℚ) ((n : ℚ) / 1)
    | Value.vfloat q => NumResult.report 1 q (q / 1)
    | Value.vlist l =>
      if l.isEmpty then NumResult.empty
      else
        NumResult.report (numericFold l).2 (numericFold l).1
          ((numericFold l).1 / ((numericFold l).2 : ℚ))
    | _ => NumResult.invalid
  else NumResult.invalid

/-- Result shape of `TextProcessor.process` on string input (`validate` is
`type(data) is str`; the embedding takes the string's character list). -/
inductive TextResult where
  | empty
  | report (characters : ℕ) (words : ℕ)
deriving DecidableEq

/-- Python whitespace for `str.split()` with no separator. -/
def isPyWs (c : Char) : Bool :=
  c == ' ' || c == '\t' || c == '\n' || c == '\x0d' || c == '\x0b' || c == '\x0c'

/-- Python `str.split()` with no separator: splits on runs of whitespace and
never yields empty components; `cur` is the word being accumulated
(in reverse). -/
def splitWsAux : List Char → List Char → List (List Char)
  | [], cur => if cur.isEmpty then [] else [cur.reverse]
  | c :: rest, cur =>
    if isPyWs c then
      if cur.isEmpty then splitWsAux rest [] else cur.reverse :: splitWsAux rest []
    else splitWsAux rest (c :: cur)

/-- `data.split()` of src/ex0/stream_processor.py:59. -/
def pySplitWs (s : List Char) : List (List Char) := splitWsAux s []

/-- `TextProcessor.process` of src/ex0/stream_processor.py:53-65 on a string:
empty check, then `len(data.split())` words and `len(data)` characters. -/
def textProcessSplit (s : List Char) : TextResult :=
  if s.isEmpty then TextResult.empty
  else TextResult.report s.length (pySplitWs s).length

/-- The character loop of `TextProcessor.process` in src/test.py:69-75:
`if ch != ' ' and not in_word: words += 1; in_word = True;
elif ch == ' ': in_word = False`. -/
def scanWordsLoop : List Char → Bool → ℕ
  | [], _ => 0
  | c :: rest, inWord =>
    if c ≠ ' ' ∧ inWord = false then 1 + scanWordsLoop rest true
    else if c = ' ' then scanWordsLoop rest false
    else scanWordsLoop rest inWord

/-- `TextProcessor.process` of src/test.py:57-80 on a string: the loop also
counts `characters += 1` per character, i.e. the length. -/
def textProcessScan (s : List Char) : TextResult :=
  if s.isEmpty then TextResult.empty
  else TextResult.report s.length (scanWordsLoop s false)

/-- Spec-side definition (specification wording, for comparison with the
code): number of maximal runs of non-separator characters, where `p`
recognises a separator; the flag records whether the previous character was
a separator (or the start of the string). -/
def runsAux (p : Char → Bool) : List Char → Bool → ℕ
  | [], _ => 0
  | c :: rest, prevSep =>
    if p c then runsAux p rest true
    else (if prevSep then 1 else 0) + runsAux p rest false

/-- Spec-side definition: number of maximal whitespace-separated runs of
non-whitespace characters. -/
def wsRuns (s : List Char) : ℕ := runsAux isPyWs s true

/-- Spec-side definition: number of maximal runs separated by the space
character alone (the separator rule of the scan variant). -/
def spaceRuns (s : List Char) : ℕ := runsAux (fun c => c == ' ') s true

/-! ## ex1/data_stream.py -/

/-- A sensor reading is a mapping read only through `d.get("temp", 0)`:
modelled by its optional numeric `temp` field. -/
abbrev SensorReading := Option ℚ

/-- The per-reading alert test of src/ex1/data_stream.py:29-30:
`d.get("temp", 0) > 30 or d.get("temp", 0) < 0`. -/
def sensorBad (d : SensorReading) : Bool :=
  decide (d.getD 0 > 30) || decide (d.getD 0 < 0)

/-- Outcome of `SensorStream.process_batch`: the alert string
`"[ALERT] found extern-values!!"` or the average-temperature summary. -/
inductive SensorResult where
  | alert
  | avg (q : ℚ)
deriving DecidableEq

/-- `SensorStream.process_batch` (src/ex1/data_stream.py:26-39): sets
`processed_count = len(batch)` (returned first), counts alert readings,
short-circuits to the alert, else averages `d.get("temp", 0.0)` guarding
the empty batch. -/
def sensorProcessBatch (batch : List SensorReading) : ℕ × SensorResult :=
  let count := batch.length
  let alerts := (batch.filter sensorBad).length
  if alerts ≠ 0 then (count, SensorResult.alert)
  else
    let total := (batch.map (fun d => d.getD 0)).sum
    (count, SensorResult.avg (if count ≠ 0 then total / (count : ℚ) else 0))

/-- `SensorStream.filter_data` (src/ex1/data_stream.py:41-47); `criteria`
is `Optional[str]`. -/
def sensorFilter (batch : List SensorReading) (criteria : Option String) :
    List SensorReading :=
  if criteria = some "high-alert" then batch.filter (fun d => decide (d.getD 0 > 30))
  else if criteria = some "large" then batch.filter (fun d => decide (d.getD 0 > 15))
  else batch

/-- Spec-side definition (claim wording): the readings whose `temp` field
exceeds 30. -/
def specTempAbove30 (batch : List SensorReading) : List SensorReading :=
  batch.filter (fun d => decide (d.getD 0 > 30))

/-- A transaction is a mapping read through `d.get("buy", 0)` and
`d.get("sell", 0)`: modelled by its optional integer fields. -/
structure Txn where
  buy : Option ℤ
  sell : Option ℤ

/-- The sign rendering of src/ex1/data_stream.py:63:
`sign = "+" if net_flow >= 0 else ""`, then `f"{sign}{net_flow}"`. -/
def renderNet (n : ℤ) : String :=
  (if n ≥ 0 then "+" else "") ++ toString n

/-- `TransactionStream.process_batch` (src/ex1/data_stream.py:57-67):
`processed_count = len(batch)`, net flow `sum(buy) - sum(sell)` with
defaults 0, rendered into the analysis line. -/
def transactionProcessBatch (batch : List Txn) : ℕ × ℤ × String :=
  let count := batch.length
  let sumBuy := (batch.map (fun d => d.buy.getD 0)).sum
  let sumSell := (batch.map (fun d => d.sell.getD 0)).sum
  let netFlow := sumBuy - sumSell
  (count, netFlow,
    "Transaction analysis: " ++ toString count ++ " operations, net flow: "
      ++ renderNet netFlow ++ " units")

/-- `StreamProcessor.process_all` (src/ex1/data_stream.py:120-140): the
`try` wraps the whole `for stream in self.streams` loop. Each registered
stream's loop body (batch lookup, `process_batch`, `get_stats`, printed
summary line) is modelled by its outcome: the summary line it emits, or the
exception it raises. The result is the list of emitted lines and the
optional `"Stream failure: ..."` message of the single `except` handler. -/
def processAll : List (Except String String) → List String × Option String
  | [] => ([], none)
  | Except.ok line :: rest =>
    let r := processAll rest
    (line :: r.1, r.2)
  | Except.error e :: _ => ([], some ("Stream failure: " ++ e))

/-! ## ex2/nexus_pipeline.py -/

/-- `"value" in data` for a dict. -/
def hasKey (l : List (String × Value)) (k : String) : Bool :=
  l.any (fun kv => kv.1 == k)

/-- Python dict item assignment `data[k] = v`: replaces in place when the
key exists (order preserved), else appends. -/
def dictSet (l : List (String × Value)) (k : String) (v : Value) :
    List (String × Value) :=
  if hasKey l k then l.map (fun kv => if kv.1 == k then (k, v) else kv)
  else l ++ [(k, v)]

/-- Python `data.split(",")` with an explicit separator: empty components
are kept, `"".split(",") == [""]`. -/
def splitComma : List Char → List (List Char)
  | [] => [[]]
  | c :: rest =>
    if c = ',' then [] :: splitComma rest
    else
      match splitComma rest with
      | [] => [[c]]
      | w :: ws => (c :: w) :: ws

/-- `Counter(data.split(",")).get("action", 0)` of
src/ex2/nexus_pipeline.py:28-29. -/
def countAction (s : List Char) : ℕ :=
  ((splitComma s).filter (fun w => w == "action".toList)).length

/-- A pipeline stage: its `display` (printing, which can still raise) and
its `process` transformation. -/
structure Stage where
  disp : Value → Except String Unit
  proc : Value → Except String Value

/-- `InputStage.process` (src/ex2/nexus_pipeline.py:11-15): raises
`ValueError("Invalid data format")` on `None`, identity otherwise. -/
def inputProc : Value → Except String Value
  | Value.vnone => Except.error "Invalid data format"
  | d => Except.ok d

/-- `InputStage.display` only prints. -/
def inputDisp (_ : Value) : Except String Unit := Except.ok ()

def inputStage : Stage := ⟨inputDisp, inputProc⟩

/-- `TransformStage.process` (src/ex2/nexus_pipeline.py:22-35): a dict with
a `"value"` key gets `status = "Normal range"`; a string is reduced to its
action count; a list is summed (raising `TypeError` on non-numeric elements
and `ZeroDivisionError` on the empty list) and reduced to count/average;
anything else passes through unchanged. -/
def transformProc : Value → Except String Value
  | Value.vdict l =>
    if hasKey l "value" then
      Except.ok (Value.vdict (dictSet l "status" (Value.vstr "Normal range")))
    else Except.ok (Value.vdict l)
  | Value.vstr s =>
    Except.ok (Value.vdict [("count_action", Value.vint (countAction s.toList))])
  | Value.vlist l =>
    if l.all isNumLike then
      if l.length = 0 then Except.error "division by zero"
      else
        Except.ok (Value.vdict
          [("count", Value.vint (l.length : ℤ)),
           ("avg", Value.vfloat ((l.map toQ).sum / (l.length : ℚ)))])
    else Except.error "unsupported operand type"
  | d => Except.ok d

/-- `TransformStage.display` only inspects `isinstance` and prints. -/
def transformDisp (_ : Value) : Except String Unit := Except.ok ()

def transformStage : Stage := ⟨transformDisp, transformProc⟩

/-- `OutputStage.process` is the identity. -/
def outputProc (d : Value) : Except String Value := Except.ok d

/-- `OutputStage.display` (src/ex2/nexus_pipeline.py:50-59): subscripts its
input, so it raises `KeyError` on a dict missing the formatted keys and
`TypeError` on non-dict shapes reaching the final `data['count_action']`. -/
def outputDisp : Value → Except String Unit
  | Value.vdict l =>
    if hasKey l "value" then
      if hasKey l "status" then Except.ok () else Except.error "KeyError: status"
    else if hasKey l "count" then
      if hasKey l "avg" then Except.ok () else Except.error "KeyError: avg"
    else if hasKey l "count_action" then Except.ok ()
    else Except.error "KeyError: count_action"
  | Value.vstr _ => Except.error "TypeError: string indices must be integers"
  | Value.vlist _ => Except.error "TypeError: list indices must be integers"
  | _ => Except.error "TypeError: object is not subscriptable"

def outputStage : Stage := ⟨outputDisp, outputProc⟩

/-- The stage chain installed by `configure_stages`
(src/ex2/nexus_pipeline.py:181-189). -/
def configuredStages : List Stage := [inputStage, transformStage, outputStage]

/-- The counters of `ProcessingPipeline.__init__`:
`{"stagesexecuted": 0, "success": 0, "errors": 0}`. -/
structure PipeStats where
  stagesexecuted : ℕ
  success : ℕ
  errors : ℕ
deriving DecidableEq

/-- One iteration of the `execute` loop body on a stage: the optional
`stage.display(data)` (inside the same `try`) followed by
`stage.process(data)`. -/
def stageStep (affich : Bool) (s : Stage) (d : Value) : Except String Value :=
  match (if affich then s.disp d else Except.ok ()) with
  | Except.error e => Except.error e
  | Except.ok _ => s.proc d

/-- `ProcessingPipeline.execute` (src/ex2/nexus_pipeline.py:77-95): runs the
stages in order, incrementing `stagesexecuted` after each completed stage;
on the first raising stage the single `except` handler increments `errors`
and the current `data` (the last successfully-produced value) is returned;
on full completion `success` is incremented. The function is total: no
exception escapes. -/
def execRun (affich : Bool) : List Stage → Value → PipeStats → Value × PipeStats
  | [], d, st => (d, ⟨st.stagesexecuted, st.success + 1, st.errors⟩)
  | s :: rest, d, st =>
    match stageStep affich s d with
    | Except.error _ => (d, ⟨st.stagesexecuted, st.success, st.errors + 1⟩)
    | Except.ok d2 => execRun affich rest d2 ⟨st.stagesexecuted + 1, st.success, st.errors⟩

/-- Pure view of a prefix of the stage chain: the value it produces when
every stage of the prefix completes, or the first raised error. -/
def runStages (affich : Bool) : List Stage → Value → Except String Value
  | [], d => Except.ok d
  | s :: rest, d =>
    match stageStep affich s d with
    | Except.error e => Except.error e
    | Except.ok d2 => runStages affich rest d2

/-- The dict comprehension of `JSONAdapter.process`
(src/ex2/nexus_pipeline.py:108): `{k: v for k, v in data.items() if v is not None}`. -/
def jsonCleaned (l : List (String × Value)) : List (String × Value) :=
  l.filter (fun kv => !kv.2.isNone)

/-- `JSONAdapter.process` (src/ex2/nexus_pipeline.py:104-109): non-dict
input is rejected with `"Invalid JSON format"` before any stage runs and
without touching the counters; dict input is cleaned of None-valued keys
and fed to `execute`. -/
def jsonAdapterProcess (stages : List Stage) (affich : Bool) (data : Value)
    (st : PipeStats) : (Value ⊕ String) × PipeStats :=
  match data with
  | Value.vdict l =>
    let r := execRun affich stages (Value.vdict (jsonCleaned l)) st
    (Sum.inl r.1, r.2)
  | _ => (Sum.inr "Invalid JSON format", st)

/-- `StreamAdapter.process` (src/ex2/nexus_pipeline.py:128-133): non-list
input is rejected with `"Invalid stream format"`; list input is filtered to
its `isinstance(x, (int, float))` elements and fed to `execute`. -/
def streamAdapterProcess (stages : List Stage) (affich : Bool) (data : Value)
    (st : PipeStats) : (Value ⊕ String) × PipeStats :=
  match data with
  | Value.vlist l =>
    let r := execRun affich stages (Value.vlist (l.filter isNumLike)) st
    (Sum.inl r.1, r.2)
  | _ => (Sum.inr "Invalid stream format", st)

/-- The values fed to the stages during `execute`, in order: each running
stage's input, ending at the stage that raises (which still receives its
input). Stages after a failure receive nothing and contribute nothing. -/
def execInputs (affich : Bool) : List Stage → Value → List Value
  | [], _ => []
  | s :: rest, d =>
    match stageStep affich s d with
    | Except.error _ => [d]
    | Except.ok d2 => d :: execInputs affich rest d2

/-- Top-level fields of a record are never `None`: the invariant the
JSON adapter's cleaning establishes (non-dict values carry no fields). -/
def noNoneField : Value → Bool
  | Value.vdict l => l.all (fun kv => !kv.2.isNone)
  | _ => true

/-- The invariant read off an adapter result (a rejection string carries no
fields). -/
def noNoneSum : Value ⊕ String → Bool
  | Sum.inl v => noNoneField v
  | Sum.inr _ => true

/-! ## Theorems -/

theorem numericFold_eq (l : List Value) :
    numericFold l = ((l.map toQ).sum, l.length) := by
  have h : ∀ (l : List Value) (t : ℚ) (n : ℕ),
      l.foldl (fun acc v => (acc.1 + toQ v, acc.2 + 1)) (t, n)
        = (t + (l.map toQ).sum, n + l.length) := by
    intro l
    induction l with
    | nil => intro t n; simp
    | cons v rest ih =>
      intro t n
      simp [List.foldl_cons, ih, add_assoc]
      omega
  simpa [numericFold] using h l 0 0

/-- C4: for every non-empty list of numbers, `NumericProcessor.process`
reports a count equal to the list's length, a sum equal to the total of its
elements, and an average equal to sum divided by count with exact
(non-truncating) division — so average times count gives back the sum —
and the batch `[1,2,3,4,5]` yields count 5, sum 15, average 3. -/
theorem numericProcess_count_sum_avg (vs : List Value) (h1 : vs ≠ [])
    (h2 : ∀ v ∈ vs, isIntOrFloat v = true) :
    numericProcess (Value.vlist vs)
      = NumResult.report vs.length ((vs.map toQ).sum)
          (((vs.map toQ).sum) / (vs.length : ℚ))
    ∧ (((vs.map toQ).sum) / (vs.length : ℚ)) * (vs.length : ℚ) = (vs.map toQ).sum
    ∧ numericProcess (Value.vlist [Value.vint 1, Value.vint 2, Value.vint 3,
        Value.vint 4, Value.vint 5]) = NumResult.report 5 15 3 := by
  have hval : numericValidate (Value.vlist vs) = true := by
    simpa [numericValidate, List.all_eq_true] using h2
  have hne : (vs.length : ℚ) ≠ 0 := by
    exact_mod_cast fun h => h1 (List.length_eq_zero.mp (by exact_mod_cast h))
  refine ⟨?_, div_mul_cancel₀ _ hne, ?_⟩
  case refine_2 =>
    simp [numericProcess, numericValidate, isIntOrFloat, numericFold_eq, toQ]
    norm_num
  obtain ⟨v, vs2, rfl⟩ : ∃ v vs2, vs = v :: vs2 := by
    cases vs with
    | nil => exact absurd rfl h1
    | cons v vs2 => exact ⟨v, vs2, rfl⟩
  simp [numericProcess, hval, numericFold_eq]

/-- Witness for C4: the hypotheses hold at the concrete batch
`[1, 2, 3, 4, 5]` and the instantiated conclusion gives Scenario A. -/
theorem numericProcess_count_sum_avg_witness :
    ([Value.vint 1, Value.vint 2, Value.vint 3, Value.vint 4, Value.vint 5]
        ≠ ([] : List Value))
    ∧ numericProcess (Value.vlist [Value.vint 1, Value.vint 2, Value.vint 3,
        Value.vint 4, Value.vint 5]) = NumResult.report 5 15 3 :=
  ⟨List.cons_ne_nil _ _,
   (numericProcess_count_sum_avg
      [Value.vint 1, Value.vint 2, Value.vint 3, Value.vint 4, Value.vint 5]
      (List.cons_ne_nil _ _) (by decide)).2.2⟩

/-- C5: the numeric validator rejects every boolean value, and every list
containing a boolean element fails numeric validation, even though booleans
pass the source language's `isinstance(x, (int, float))` test. -/
theorem numericValidate_rejects_bool :
    (∀ b : Bool, numericValidate (Value.vbool b) = false)
    ∧ (∀ (l1 l2 : List Value) (b : Bool),
        numericValidate (Value.vlist (l1 ++ Value.vbool b :: l2)) = false)
    ∧ (∀ b : Bool, isNumLike (Value.vbool b) = true) := by
  refine ⟨fun b => rfl, ?_, fun b => rfl⟩
  intro l1 l2 b
  simp [numericValidate, List.all_append, isIntOrFloat]

theorem splitWsAux_length (s : List Char) :
    ∀ cur : List Char,
      (splitWsAux s cur).length
        = (if cur.isEmpty then 0 else 1) + runsAux isPyWs s cur.isEmpty := by
  induction s with
  | nil =>
    intro cur
    cases cur <;> simp [splitWsAux, runsAux]
  | cons c rest ih =>
    intro cur
    by_cases hc : isPyWs c
    · cases cur with
      | nil => simp [splitWsAux, runsAux, hc, ih []]
      | cons x xs =>
        simp [splitWsAux, runsAux, hc, ih []]
        omega
    · cases cur with
      | nil => simp [splitWsAux, runsAux, hc, ih [c]]
      | cons x xs => simp [splitWsAux, runsAux, hc, ih (c :: x :: xs)]

theorem scanWordsLoop_eq_runsAux (s : List Char) :
    ∀ iw : Bool, scanWordsLoop s iw = runsAux (fun c => c == ' ') s (!iw) := by
  induction s with
  | nil => intro iw; rfl
  | cons c rest ih =>
    intro iw
    by_cases hc : c = ' '
    · subst hc
      cases iw <;> simp [scanWordsLoop, runsAux, ih]
    · cases iw <;> simp [scanWordsLoop, runsAux, hc, ih]

theorem runsAux_congr (p q : Char → Bool) :
    ∀ s : List Char, (∀ c ∈ s, p c = q c) →
      ∀ b, runsAux p s b = runsAux q s b := by
  intro s
  induction s with
  | nil => intro _ b; rfl
  | cons c rest ih =>
    intro h b
    have hc : p c = q c := h c (List.mem_cons_self c rest)
    have hr : ∀ x ∈ rest, p x = q x := fun x hx => h x (List.mem_cons_of_mem c hx)
    simp [runsAux, hc, ih hr]

/-- C6 counterexample: on the string "a\tb" the scan-based
`TextProcessor.process` of src/test.py reports 1 word, while the number of
maximal whitespace-separated runs of non-whitespace characters is 2, so the
claim fails as stated for that processor. -/
theorem textProcessScan_counterexample :
    textProcessScan ['a', '\t', 'b']
      ≠ TextResult.report (['a', '\t', 'b'].length) (wsRuns ['a', '\t', 'b']) := by
  decide

/-- C6 amended: for every non-empty string, the split-based processor
(src/ex0) reports character count equal to the length and word count equal
to the number of maximal whitespace-separated runs, while the scan-based
processor (src/test.py) reports character count equal to the length and
word count equal to the number of maximal runs separated by the space
character alone; the two word counts agree whenever the string's only
whitespace is the space character. -/
theorem textProcess_word_counts (s : List Char) (h : s ≠ []) :
    textProcessSplit s = TextResult.report s.length (wsRuns s)
    ∧ textProcessScan s = TextResult.report s.length (spaceRuns s)
    ∧ ((∀ c ∈ s, isPyWs c = true → c = ' ') → wsRuns s = spaceRuns s) := by
  have hemp : s.isEmpty = false := by
    cases s with
    | nil => exact absurd rfl h
    | cons a l => rfl
  refine ⟨?_, ?_, ?_⟩
  · simp only [textProcessSplit, hemp, Bool.false_eq_true, if_false, pySplitWs, wsRuns]
    simpa using splitWsAux_length s []
  · simp only [textProcessScan, hemp, Bool.false_eq_true, if_false, spaceRuns]
    simpa using scanWordsLoop_eq_runsAux s false
  · intro hws
    apply runsAux_congr
    intro c hc
    by_cases h1 : isPyWs c = true
    · rw [h1, hws c hc h1]
      decide
    · have h2 : c ≠ ' ' := fun hc2 => h1 (by rw [hc2]; rfl)
      have h3 : (c == ' ') = false := by simpa using h2
      rw [h3]
      simpa using h1

/-- Witness for C6 at Scenario B's string "Hello Nexus World": 17
characters, 3 words. -/
theorem textProcess_word_counts_witness :
    ("Hello Nexus World".toList ≠ [])
    ∧ textProcessSplit "Hello Nexus World".toList = TextResult.report 17 3 :=
  ⟨by decide,
   ((textProcess_word_counts "Hello Nexus World".toList (by decide)).1).trans
     (by decide)⟩

theorem sensorBad_iff (d : SensorReading) :
    sensorBad d = true ↔ (d.getD 0 > 30 ∨ d.getD 0 < 0) := by
  simp [sensorBad]

/-- C7: for every sensor batch, `process_batch` reports the out-of-range
alert exactly when some reading's temp field exceeds 30 or is below 0, and
otherwise the average of the temp fields (missing fields defaulting to 0);
in both branches the processed-items counter equals the batch length.
Scenario D's batch of temps 40.5 and 32 yields the alert with counter 2. -/
theorem sensorProcessBatch_alert_or_average (batch : List SensorReading) :
    sensorProcessBatch batch
      = (batch.length,
         if ∃ d ∈ batch, d.getD 0 > 30 ∨ d.getD 0 < 0 then SensorResult.alert
         else SensorResult.avg
           ((batch.map (fun d => d.getD 0)).sum / (batch.length : ℚ)))
    ∧ sensorProcessBatch [some (81/2 : ℚ), some 32] = (2, SensorResult.alert) := by
  constructor
  · unfold sensorProcessBatch
    by_cases hex : ∃ d ∈ batch, d.getD 0 > 30 ∨ d.getD 0 < 0
    · have halt : (batch.filter sensorBad).length ≠ 0 := by
        obtain ⟨d, hd, hcond⟩ := hex
        have hmem : d ∈ batch.filter sensorBad :=
          List.mem_filter.mpr ⟨hd, (sensorBad_iff d).mpr hcond⟩
        intro h0
        rw [List.length_eq_zero] at h0
        simp [h0] at hmem
      simp [halt, hex]
    · have hall : ∀ a ∈ batch, ¬(a.getD 0 > 30 ∨ a.getD 0 < 0) :=
        fun a ha hP => hex ⟨a, ha, hP⟩
      have halt : (batch.filter sensorBad).length = 0 := by
        rw [List.length_eq_zero, List.filter_eq_nil_iff]
        intro a ha
        rw [Bool.not_eq_true, ← Bool.not_eq_true]
        rw [sensorBad_iff a]
        exact hall a ha
      by_cases hb : batch.length = 0
      · simp [halt, hex, hb]
      · simp [halt, hex, hb]
  · have h1 : sensorBad (some (81/2 : ℚ)) = true := by
      rw [sensorBad_iff]
      norm_num
    have h2 : sensorBad (some (32 : ℚ)) = true := by
      rw [sensorBad_iff]
      norm_num
    simp [sensorProcessBatch, h1, h2]

/-- C3 counterexample: on a batch with one low reading, criterion "high"
returns the batch unchanged, not the subset of readings with temp above 30
(which is empty), so the claim fails as stated. -/
theorem sensorFilter_high_counterexample :
    sensorFilter [some (10 : ℚ)] (some "high")
      ≠ specTempAbove30 [some (10 : ℚ)] := by
  have h1 : sensorFilter [some (10 : ℚ)] (some "high") = [some (10 : ℚ)] := by
    unfold sensorFilter
    rw [if_neg (by decide), if_neg (by decide)]
  have h2 : specTempAbove30 [some (10 : ℚ)] = [] := by
    simp [specTempAbove30, List.filter_cons, List.filter_nil]
    norm_num
  rw [h1, h2]
  simp

/-- C3 amended: criterion "high-alert" selects exactly the readings with
temp above 30, criterion "large" exactly those with temp above 15, and any
other criterion — including "high" — returns the input batch unchanged. -/
theorem sensorFilter_criteria (batch : List SensorReading) :
    sensorFilter batch (some "high-alert")
      = batch.filter (fun d => decide (d.getD 0 > 30))
    ∧ sensorFilter batch (some "large")
      = batch.filter (fun d => decide (d.getD 0 > 15))
    ∧ ∀ c : Option String, c ≠ some "high-alert" → c ≠ some "large" →
        sensorFilter batch c = batch := by
  refine ⟨by simp [sensorFilter], ?_, ?_⟩
  · unfold sensorFilter
    rw [if_neg (by decide), if_pos rfl]
  · intro c hc1 hc2
    unfold sensorFilter
    rw [if_neg hc1, if_neg hc2]

/-- Witness for C3's amended claim at the concrete criterion "high" and a
one-reading batch. -/
theorem sensorFilter_criteria_witness :
    (some "high" ≠ some "high-alert") ∧ (some "high" ≠ some "large")
    ∧ sensorFilter [some (10 : ℚ)] (some "high") = [some (10 : ℚ)] :=
  ⟨by decide, by decide,
   (sensorFilter_criteria [some (10 : ℚ)]).2.2 (some "high") (by decide) (by decide)⟩

/-- C8: the transaction net flow is the sum of the buy fields minus the sum
of the sell fields (missing fields defaulting to 0); a non-negative net
flow renders with an explicit leading "+", a negative one with its natural
minus sign; Scenario E's batch renders "+25" with 3 operations. -/
theorem transactionProcessBatch_netflow (batch : List Txn) :
    ((transactionProcessBatch batch).2.1
        = (batch.map (fun d => d.buy.getD 0)).sum
          - (batch.map (fun d => d.sell.getD 0)).sum)
    ∧ (∀ n : ℕ, renderNet (n : ℤ) = "+" ++ toString (n : ℤ))
    ∧ (∀ n : ℕ, renderNet (Int.negSucc n) = "-" ++ toString (n + 1 : ℕ))
    ∧ transactionProcessBatch [⟨some 100, none⟩, ⟨none, some 150⟩, ⟨some 75, none⟩]
        = (3, 25, "Transaction analysis: 3 operations, net flow: +25 units") := by
  refine ⟨rfl, ?_, ?_, by decide⟩
  · intro n
    unfold renderNet
    rw [if_pos (by exact_mod_cast Nat.zero_le n)]
  · intro n
    unfold renderNet
    rw [if_neg (by exact not_le.mpr (Int.negSucc_lt_zero n))]
    rfl

/-- C2 counterexample: with a first registered stream whose loop body
raises and a second whose summary line is "L2", `process_all` reports the
failure once and the second stream's summary is never emitted — iteration
does not continue past the failing owner. -/
theorem processAll_counterexample :
    processAll [Except.error "boom", Except.ok "L2"]
      = ([], some "Stream failure: boom")
    ∧ "L2" ∉ (processAll [Except.error "boom", Except.ok "L2"]).1 := by
  constructor <;> decide

/-- C2 amended: a failing stream's exception is caught by `process_all`
(reported once as a stream failure, never propagated to the caller), the
streams before the failure have their summaries emitted, but iteration
aborts: the streams after the failing one are not processed. A run with no
failure emits every stream's summary. -/
theorem processAll_abort_semantics (lines : List String) (e : String)
    (rest : List (Except String String)) :
    processAll (lines.map Except.ok ++ Except.error e :: rest)
      = (lines, some ("Stream failure: " ++ e))
    ∧ processAll (lines.map Except.ok) = (lines, none) := by
  induction lines with
  | nil => exact ⟨rfl, rfl⟩
  | cons a ls ih =>
    refine ⟨?_, ?_⟩
    · simp [processAll, ih.1]
    · simp [processAll, ih.2]

theorem stageStep_ok (affich : Bool) (s : Stage) (d d2 : Value)
    (h : stageStep affich s d = Except.ok d2) : s.proc d = Except.ok d2 := by
  unfold stageStep at h
  cases hd : (if affich then s.disp d else Except.ok ()) with
  | error e => rw [hd] at h; simp at h
  | ok u => rw [hd] at h; exact h

/-- C1: if during `execute` every stage before some failing stage completes
(producing `d`) and that stage raises, then the remaining stages are not
run (the result does not depend on them), the `errors` counter increases by
exactly 1, no exception propagates (`execRun` is total and returns
normally), and the last successfully-produced value `d` is returned — for a
failure at the first stage, the original input. -/
theorem execute_error_abort (affich : Bool) (pre : List Stage) :
    ∀ (bad : Stage) (rest : List Stage) (data d : Value) (st : PipeStats)
      (e : String),
      runStages affich pre data = Except.ok d →
      stageStep affich bad d = Except.error e →
      execRun affich (pre ++ bad :: rest) data st
        = (d, ⟨st.stagesexecuted + pre.length, st.success, st.errors + 1⟩) := by
  induction pre with
  | nil =>
    intro bad rest data d st e hpre hbad
    simp only [runStages] at hpre
    injection hpre with hpre
    subst hpre
    simp [execRun, hbad]
  | cons s pre2 ih =>
    intro bad rest data d st e hpre hbad
    simp only [runStages] at hpre
    cases hstep : stageStep affich s data with
    | error e2 => rw [hstep] at hpre; simp at hpre
    | ok d1 =>
      rw [hstep] at hpre
      have hrec := ih bad rest d1 d ⟨st.stagesexecuted + 1, st.success, st.errors⟩
        e hpre hbad
      have hh : st.stagesexecuted + 1 + pre2.length
          = st.stagesexecuted + (pre2.length + 1) := by omega
      calc execRun affich ((s :: pre2) ++ bad :: rest) data st
          = execRun affich (pre2 ++ bad :: rest) d1
              ⟨st.stagesexecuted + 1, st.success, st.errors⟩ := by
            simp only [List.cons_append, execRun, hstep]
            rfl
        _ = (d, ⟨st.stagesexecuted + 1 + pre2.length, st.success,
              st.errors + 1⟩) := hrec
        _ = (d, ⟨st.stagesexecuted + (s :: pre2).length, st.success,
              st.errors + 1⟩) := by rw [List.length_cons, hh]

/-- Witness for C1: Scenario F — the configured three-stage pipeline given
None fails at stage 1 (the input stage raises on None), the error counter
rises by exactly 1, the later stages never run, and the original input is
returned. -/
theorem execute_error_abort_witness :
    runStages false [] Value.vnone = Except.ok Value.vnone
    ∧ stageStep false inputStage Value.vnone = Except.error "Invalid data format"
    ∧ execRun false configuredStages Value.vnone ⟨0, 0, 0⟩
        = (Value.vnone, ⟨0 + List.length ([] : List Stage), 0, 0 + 1⟩) :=
  ⟨rfl, rfl,
   execute_error_abort false [] inputStage [transformStage, outputStage]
     Value.vnone Value.vnone ⟨0, 0, 0⟩ "Invalid data format" rfl rfl⟩

/-- C9: for every list input whose elements all fail the source's
`isinstance(x, (int, float))` filter test (in particular the empty list),
`StreamAdapter.process` feeds the empty filtered list to the stage chain,
the transform stage's division by the length raises (caught inside
`execute`): the errors counter rises by 1, the output stage never runs, and
the filtered empty list is returned to the caller. -/
theorem streamAdapter_no_numeric (affich : Bool) (l : List Value)
    (st : PipeStats) (h : ∀ x ∈ l, isNumLike x = false) :
    streamAdapterProcess configuredStages affich (Value.vlist l) st
      = (Sum.inl (Value.vlist []),
         ⟨st.stagesexecuted + 1, st.success, st.errors + 1⟩) := by
  have hfil : l.filter isNumLike = [] := by
    rw [List.filter_eq_nil_iff]
    intro a ha
    simp [h a ha]
  have h1 : stageStep affich inputStage (Value.vlist [])
      = Except.ok (Value.vlist []) := by
    cases affich <;> rfl
  have h2 : stageStep affich transformStage (Value.vlist [])
      = Except.error "division by zero" := by
    cases affich <;> rfl
  simp only [streamAdapterProcess, hfil, configuredStages, execRun, h1, h2]

/-- Witness for C9 at the list `["abc"]` (no numeric elements), with
display enabled and zeroed counters. -/
theorem streamAdapter_no_numeric_witness :
    (∀ x ∈ [Value.vstr "abc"], isNumLike x = false)
    ∧ streamAdapterProcess configuredStages true
        (Value.vlist [Value.vstr "abc"]) ⟨0, 0, 0⟩
        = (Sum.inl (Value.vlist []), ⟨0 + 1, 0, 0 + 1⟩) :=
  ⟨by decide,
   streamAdapter_no_numeric true [Value.vstr "abc"] ⟨0, 0, 0⟩ (by decide)⟩

theorem dictSet_noNone (l : List (String × Value)) (k : String) (v : Value)
    (hl : l.all (fun kv => !kv.2.isNone) = true) (hv : v.isNone = false) :
    (dictSet l k v).all (fun kv => !kv.2.isNone) = true := by
  unfold dictSet
  by_cases hk : hasKey l k
  · rw [if_pos hk, List.all_eq_true]
    intro kv hkv
    rw [List.mem_map] at hkv
    obtain ⟨kv0, hkv0, rfl⟩ := hkv
    rw [List.all_eq_true] at hl
    by_cases he : (kv0.1 == k) = true
    · simp [he, hv]
    · simp only [he, if_false]
      exact hl kv0 hkv0
  · rw [if_neg hk, List.all_eq_true]
    intro kv hkv
    rw [List.mem_append] at hkv
    rw [List.all_eq_true] at hl
    cases hkv with
    | inl h1 => exact hl kv h1
    | inr h2 =>
      simp only [List.mem_singleton] at h2
      subst h2
      simp [hv]

theorem inputProc_ok (x y : Value) (h : inputProc x = Except.ok y) : y = x := by
  cases x <;> simp [inputProc] at h <;> exact h.symm

theorem transformProc_noNone (x y : Value) (hx : noNoneField x = true)
    (h : transformProc x = Except.ok y) : noNoneField y = true := by
  cases x with
  | vdict l =>
    simp only [transformProc] at h
    by_cases hk : hasKey l "value"
    · rw [if_pos hk] at h
      injection h with h
      subst h
      exact dictSet_noNone l "status" (Value.vstr "Normal range") hx rfl
    · rw [if_neg hk] at h
      injection h with h
      subst h
      exact hx
  | vstr s =>
    simp only [transformProc] at h
    injection h with h
    subst h
    rfl
  | vlist l =>
    simp only [transformProc] at h
    by_cases ha : l.all isNumLike = true
    · rw [if_pos ha] at h
      by_cases hl : l.length = 0
      · rw [if_pos hl] at h
        simp at h
      · rw [if_neg hl] at h
        injection h with h
        subst h
        rfl
    · rw [if_neg ha] at h
      simp at h
  | vnone =>
    simp only [transformProc] at h
    injection h with h
    subst h
    rfl
  | vbool b =>
    simp only [transformProc] at h
    injection h with h
    subst h
    rfl
  | vint n =>
    simp only [transformProc] at h
    injection h with h
    subst h
    rfl
  | vfloat q =>
    simp only [transformProc] at h
    injection h with h
    subst h
    rfl

theorem execRun_invariant (P : Value → Bool) (affich : Bool) :
    ∀ (stages : List Stage) (d : Value) (st : PipeStats),
      (∀ s ∈ stages, ∀ x y, P x = true → s.proc x = Except.ok y → P y = true) →
      P d = true → P (execRun affich stages d st).1 = true := by
  intro stages
  induction stages with
  | nil => intro d st _ hd; simpa [execRun] using hd
  | cons s rest ih =>
    intro d st hs hd
    cases hstep : stageStep affich s d with
    | error e => simpa [execRun, hstep] using hd
    | ok d2 =>
      have hproc := stageStep_ok affich s d d2 hstep
      have hd2 : P d2 = true := hs s (List.mem_cons_self s rest) d d2 hd hproc
      have hrest : ∀ s2 ∈ rest, ∀ x y, P x = true →
          s2.proc x = Except.ok y → P y = true :=
        fun s2 hs2 => hs s2 (List.mem_cons_of_mem s hs2)
      simpa [execRun, hstep] using
        ih d2 ⟨st.stagesexecuted + 1, st.success, st.errors⟩ hrest hd2

theorem execInputs_invariant (P : Value → Bool) (affich : Bool) :
    ∀ (stages : List Stage) (d : Value),
      (∀ s ∈ stages, ∀ x y, P x = true → s.proc x = Except.ok y → P y = true) →
      P d = true → (execInputs affich stages d).all P = true := by
  intro stages
  induction stages with
  | nil => intro d _ _; rfl
  | cons s rest ih =>
    intro d hs hd
    cases hstep : stageStep affich s d with
    | error e => simp [execInputs, hstep, hd]
    | ok d2 =>
      have hproc := stageStep_ok affich s d d2 hstep
      have hd2 : P d2 = true := hs s (List.mem_cons_self s rest) d d2 hd hproc
      have hrest : ∀ s2 ∈ rest, ∀ x y, P x = true →
          s2.proc x = Except.ok y → P y = true :=
        fun s2 hs2 => hs s2 (List.mem_cons_of_mem s hs2)
      simp [execInputs, hstep, hd, ih d2 hrest hd2]

/-- C10: `JSONAdapter.process` removes exactly the keys whose value is None
(a pair survives the cleaning iff it is in the input with a non-None value,
and the cleaning is a sublist: every other pair is unchanged and in order);
with the configured stage chain, for any dict input, every value the stages
receive and the returned value never contain a None-valued field; and every
non-mapping input — None, a boolean, an int, a float, a string or a list —
is rejected with the string "Invalid JSON format" with the counters
unchanged and no stage run (the result does not depend on the stages). -/
theorem jsonAdapter_clean_and_reject :
    (∀ (l : List (String × Value)) (kv : String × Value),
        kv ∈ jsonCleaned l ↔ (kv ∈ l ∧ kv.2.isNone = false))
    ∧ (∀ l : List (String × Value), List.Sublist (jsonCleaned l) l)
    ∧ (∀ (affich : Bool) (l : List (String × Value)) (st : PipeStats),
        (execInputs affich configuredStages (Value.vdict (jsonCleaned l))).all
          noNoneField = true
        ∧ noNoneSum (jsonAdapterProcess configuredStages affich
            (Value.vdict l) st).1 = true)
    ∧ (∀ (stages : List Stage) (affich : Bool) (st : PipeStats),
        (∀ n : ℤ, jsonAdapterProcess stages affich (Value.vint n) st
            = (Sum.inr "Invalid JSON format", st))
        ∧ (∀ q : ℚ, jsonAdapterProcess stages affich (Value.vfloat q) st
            = (Sum.inr "Invalid JSON format", st))
        ∧ (∀ b : Bool, jsonAdapterProcess stages affich (Value.vbool b) st
            = (Sum.inr "Invalid JSON format", st))
        ∧ (∀ s : String, jsonAdapterProcess stages affich (Value.vstr s) st
            = (Sum.inr "Invalid JSON format", st))
        ∧ (∀ lv : List Value, jsonAdapterProcess stages affich (Value.vlist lv) st
            = (Sum.inr "Invalid JSON format", st))
        ∧ jsonAdapterProcess stages affich Value.vnone st
            = (Sum.inr "Invalid JSON format", st)) := by
  refine ⟨?_, ?_, ?_, ?_⟩
  · intro l kv
    simp [jsonCleaned, List.mem_filter]
  · intro l
    exact List.filter_sublist l
  · intro affich l st
    have hpres : ∀ s ∈ configuredStages, ∀ x y, noNoneField x = true →
        s.proc x = Except.ok y → noNoneField y = true := by
      intro s hs x y hx hxy
      simp only [configuredStages, List.mem_cons, List.mem_singleton,
        List.not_mem_nil, or_false] at hs
      rcases hs with rfl | rfl | rfl
      · rw [inputProc_ok x y hxy]
        exact hx
      · exact transformProc_noNone x y hx hxy
      · injection hxy with hxy
        subst hxy
        exact hx
    have hP0 : noNoneField (Value.vdict (jsonCleaned l)) = true := by
      simp [noNoneField, jsonCleaned, List.all_eq_true, List.mem_filter]
    constructor
    · exact execInputs_invariant noNoneField affich configuredStages
        (Value.vdict (jsonCleaned l)) hpres hP0
    · simp only [jsonAdapterProcess]
      show noNoneField
        (execRun affich configuredStages (Value.vdict (jsonCleaned l)) st).1 = true
      exact execRun_invariant noNoneField affich configuredStages
        (Value.vdict (jsonCleaned l)) st hpres hP0
  · intro stages affich st
    exact ⟨fun n => rfl, fun q => rfl, fun b => rfl, fun s => rfl, fun lv => rfl, rfl⟩
